import Mathlib

/-!
# Pandora: neighbour queries of `Engine::World` and the `HerderWorld` example

A shallow embedding of

* `src/pandora/World.hxx`: the neighbour filter `World::aggregator` with its two
  terminal actions `aggregatorCount` and `aggregatorGet`;
* `src/pandora/examples/gujarat_cellphones2/HerderWorld.cxx`: `createAgents`,
  `recomputeYearlyBiomass`, `stepEnvironment`, `updateResources`, `isWetSeason`.

Conventions.  C++ `int` is `Int` (no overflow).  The `double` arithmetic of the neighbour
filter is IEEE 754 binary64 with rounding to nearest, ties to even: the type `Double` below.
The `float` arithmetic of `HerderWorld` is taken exactly, in `ℚ`, as the properties stated
about it are.  Objects live in a heap that maps an address to the object stored there, so
that the pointer comparison `neighbor == &_center` is equality of addresses.
-/

/-! ## IEEE 754 binary64 -/

/-- The value of an IEEE 754 binary64 number (`double`): a NaN, an infinity with its sign, or
the finite number `m * 2 ^ e`.  The sign of a zero is not kept: no operation modelled here
tells `-0.0` from `+0.0`. -/
inductive Double where
  | nan
  | inf (negative : Bool)
  | finite (m : Int) (e : Int)
  deriving DecidableEq, Repr

namespace Double

/-- The position of the leading bit of `n` (`0` for `n < 2`), by repeated halving; the first
argument bounds the number of halvings. -/
def log2Loop : Nat → Nat → Nat
  | 0, _ => 0
  | fuel + 1, n => if n < 2 then 0 else log2Loop fuel (n / 2) + 1

/-- The position of the leading bit of `n`: `floor (log2 n)` for `n ≥ 1`. -/
def log2 (n : Nat) : Nat :=
  log2Loop n n

/-- The integer square root, bit by bit from bit `b - 1` down: the largest `r` extending the
bits already chosen with `r * r ≤ n`. -/
def isqrtLoop (n : Nat) : Nat → Nat → Nat
  | 0, r => r
  | b + 1, r =>
    if (r + 2 ^ b) * (r + 2 ^ b) ≤ n then isqrtLoop n b (r + 2 ^ b) else isqrtLoop n b r

/-- The integer square root `floor (sqrt n)`. -/
def isqrt (n : Nat) : Nat :=
  isqrtLoop n (log2 n / 2 + 1) 0

/-- Rounding to nearest, ties to even, of the exact number `m * 2 ^ e` to binary64: 53
significant bits, least exponent `-1074` (subnormals), overflow to infinity from `2 ^ 1024`
less half a unit in the last place. -/
def round (m e : Int) : Double :=
  if m = 0 then finite 0 0
  else
    let a : Nat := m.natAbs
    let t : Int := max ((log2 a : Int) + e - 52) (-1074)
    if 971 < t then inf (decide (m < 0))
    else
      let mant : Nat :=
        if t ≤ e then a * 2 ^ (e - t).toNat
        else
          let q : Nat := a / 2 ^ (t - e).toNat
          let rem : Nat := a % 2 ^ (t - e).toNat
          let half : Nat := 2 ^ ((t - e).toNat - 1)
          if rem < half then q
          else if half < rem then q + 1
          else if q % 2 = 0 then q
          else q + 1
      if t = 971 ∧ 2 ^ 53 ≤ mant then inf (decide (m < 0))
      else finite (if m < 0 then -(mant : Int) else (mant : Int)) t

/-- The conversion of an `int` to `double`. -/
def ofInt (n : Int) : Double :=
  round n 0

/-- The negation `-x`. -/
def neg : Double → Double
  | nan => nan
  | inf s => inf (!s)
  | finite m e => finite (-m) e

/-- The sum `x + y`: the exact sum, rounded. -/
def add : Double → Double → Double
  | nan, _ => nan
  | _, nan => nan
  | inf s, inf s1 => if s = s1 then inf s else nan
  | inf s, finite _ _ => inf s
  | finite _ _, inf s => inf s
  | finite m1 e1, finite m2 e2 =>
    round (m1 * 2 ^ (e1 - min e1 e2).toNat + m2 * 2 ^ (e2 - min e1 e2).toNat) (min e1 e2)

/-- The difference `x - y`. -/
def sub (x y : Double) : Double :=
  add x (neg y)

/-- The product `x * y`: the exact product, rounded. -/
def mul : Double → Double → Double
  | nan, _ => nan
  | _, nan => nan
  | inf s, inf s1 => inf (s != s1)
  | inf s, finite m _ => if m = 0 then nan else inf (s != decide (m < 0))
  | finite m _, inf s => if m = 0 then nan else inf (s != decide (m < 0))
  | finite m1 e1, finite m2 e2 => round (m1 * m2) (e1 + e2)

/-- The square root `sqrt(x)`, correctly rounded (to nearest, ties to even). -/
def sqrt : Double → Double
  | nan => nan
  | inf s => if s then nan else inf false
  | finite m e =>
    if m < 0 then nan
    else if m = 0 then finite 0 0
    else
      let a : Nat := m.toNat
      let t : Int := ((log2 a : Int) + e) / 2 - 52
      let u : Nat := if 0 ≤ e - 2 * t then 0 else ((2 * t - e + 1) / 2).toNat
      let n : Nat := a * 2 ^ (e - 2 * t + 2 * (u : Int)).toNat
      let k : Nat := isqrt n / 2 ^ u
      if 4 * n < (2 * k + 1) * (2 * k + 1) * 4 ^ u then finite (k : Int) t
      else if (2 * k + 1) * (2 * k + 1) * 4 ^ u < 4 * n then finite ((k : Int) + 1) t
      else if k % 2 = 0 then finite (k : Int) t
      else finite ((k : Int) + 1) t

/-- The comparison `x <= y`. -/
def le : Double → Double → Bool
  | nan, _ => false
  | _, nan => false
  | inf s, inf s1 => s || !s1
  | inf s, finite _ _ => s
  | finite _ _, inf s => !s
  | finite m1 e1, finite m2 e2 =>
    decide (m1 * 2 ^ (e1 - min e1 e2).toNat ≤ m2 * 2 ^ (e2 - min e1 e2).toNat)

/-- The literal `0.0001`: the double nearest to `1/10000`, `7378697629483821 * 2 ^ (-66)`. -/
def literal_0_0001 : Double :=
  finite 7378697629483821 (-66)

end Double

namespace Engine

/-- The integer point `Engine::Point2D<int>` with its two coordinates `_x` and `_y`. -/
structure Point2D where
  _x : Int
  _y : Int
  deriving DecidableEq, Repr

/-- Modelled from the spec: `Point2D::distance` is declared in `Point2D.hxx`, which is not
among the sources; the spec and the comments on `countNeighbours` and `getNeighbours` give it
as the Euclidean distance, here computed in `double` as
`sqrt(valueX*valueX + valueY*valueY)` with `double valueX = _x - point._x` and
`double valueY = _y - point._y`, every operation rounded once. -/
def Point2D.distance (p q : Point2D) : Double :=
  Double.sqrt (Double.add
    (Double.mul (Double.ofInt (p._x - q._x)) (Double.ofInt (p._x - q._x)))
    (Double.mul (Double.ofInt (p._y - q._y)) (Double.ofInt (p._y - q._y))))

/-- The part of `Engine::Agent` the neighbour filter reads: the string id, the position
(`getPosition()`), the existence flag (`exists()`) and the type tag. -/
structure Agent where
  _id : String
  _position : Point2D
  _exists : Bool
  _type : String
  deriving DecidableEq, Repr

/-- Modelled from the spec: `Agent::isType` is declared in `Agent.hxx`, which is not among the
sources; the spec gives an agent a type tag, and `isType(type)` tells whether the tag is
`type`. -/
def Agent.isType (a : Agent) (type : String) : Bool :=
  a._type == type

/-- An address of an object: what a `T *` holds. -/
abbrev Addr := Nat

/-- The heap: the agent stored at each address. -/
abbrev Heap := Addr → Agent

/-- The data members of `World::aggregator<T>`: `_particularType`, `_radius`, the reference
`_center` (an address) and `_type`. -/
structure aggregator where
  _particularType : Bool
  _radius : Double
  _center : Addr
  _type : String
  deriving DecidableEq, Repr

/-- The constructor `aggregator(radius, center, type)`: `_particularType` is
`_type.compare("all")` converted to `bool`, that is, true exactly when `_type` differs from
`"all"`. -/
def aggregator.ctor (radius : Double) (center : Addr) (type : String) : aggregator :=
  { _particularType := type != "all", _radius := radius, _center := center, _type := type }

/-- The call `aggregator::operator()( T * neighbor )`.  The pure virtual `execute` is the
parameter `execute`, acting on the state `σ` of the derived class. -/
def aggregator.call {σ : Type} (execute : σ → Addr → σ) (heap : Heap) (self : aggregator)
    (st : σ) (neighbor : Addr) : σ :=
  if neighbor = self._center || !(heap neighbor)._exists then
    st
  else if self._particularType && !(heap neighbor).isType self._type then
    st
  else if Double.le
      (Double.sub ((heap self._center)._position.distance (heap neighbor)._position) self._radius)
      Double.literal_0_0001 then
    execute st neighbor
  else
    st

/-- The state `aggregatorCount` adds to `aggregator`: `_count`. -/
structure aggregatorCount where
  _count : Int
  deriving DecidableEq, Repr

/-- The constructor of `aggregatorCount`: `_count(0)`. -/
def aggregatorCount.init : aggregatorCount := { _count := 0 }

/-- The terminal action `aggregatorCount::execute`: `_count++`. -/
def aggregatorCount.execute (s : aggregatorCount) (_neighbor : Addr) : aggregatorCount :=
  { _count := s._count + 1 }

/-- The state `aggregatorGet` adds to `aggregator`: the vector `_neighbors`. -/
structure aggregatorGet where
  _neighbors : List Addr
  deriving DecidableEq, Repr

/-- The constructor of `aggregatorGet`: an empty `_neighbors`. -/
def aggregatorGet.init : aggregatorGet := { _neighbors := [] }

/-- The terminal action `aggregatorGet::execute`: `_neighbors.push_back(&neighbor)`. -/
def aggregatorGet.execute (s : aggregatorGet) (neighbor : Addr) : aggregatorGet :=
  { _neighbors := s._neighbors ++ [neighbor] }

/-- Feeding a sequence of agent pointers to an `aggregatorCount`, one call of `operator()`
per element, in order. -/
def aggregatorCount.run (heap : Heap) (radius : Double) (center : Addr) (type : String)
    (agents : List Addr) : aggregatorCount :=
  agents.foldl (aggregator.call aggregatorCount.execute heap (aggregator.ctor radius center type))
    aggregatorCount.init

/-- Feeding a sequence of agent pointers to an `aggregatorGet`, one call of `operator()` per
element, in order. -/
def aggregatorGet.run (heap : Heap) (radius : Double) (center : Addr) (type : String)
    (agents : List Addr) : aggregatorGet :=
  agents.foldl (aggregator.call aggregatorGet.execute heap (aggregator.ctor radius center type))
    aggregatorGet.init

/-- The Manhattan distance `|dx| + |dy|` between two points, the metric named by the comment
above `World::aggregator`. -/
def Point2D.manhattan (p q : Point2D) : Int :=
  |p._x - q._x| + |p._y - q._y|

/-- The three agents of the neighbour-query scenario: `A` at `(0,0)` of type `"x"` stored at
address `0`, `B` at `(3,0)` of type `"x"` at address `1`, `C` at `(5,0)` of type `"y"` at
address `2`; every other address holds an agent that does not exist. -/
def scenarioHeap : Heap := fun a =>
  match a with
  | 0 => { _id := "x_A", _position := ⟨0, 0⟩, _exists := true, _type := "x" }
  | 1 => { _id := "x_B", _position := ⟨3, 0⟩, _exists := true, _type := "x" }
  | 2 => { _id := "y_C", _position := ⟨5, 0⟩, _exists := true, _type := "y" }
  | _ => { _id := "", _position := ⟨0, 0⟩, _exists := false, _type := "" }

/-- A heap with a center agent at `(0,0)` (address `0`) and an agent at `(3,4)` (address `1`),
both existing and of type `"x"`. -/
def diagonalHeap : Heap := fun a =>
  match a with
  | 1 => { _id := "x_1", _position := ⟨3, 4⟩, _exists := true, _type := "x" }
  | _ => { _id := "x_0", _position := ⟨0, 0⟩, _exists := true, _type := "x" }

/-- The neighbour condition in the words of the contract of `query`: `n` is not the center
agent itself, `n` exists, the type filter is `"all"` or `n` is of that type, and the Euclidean
distance between the two positions minus the radius is at most `0.0001`, the subtraction and
the comparison being those of `double`. -/
def isNeighbour (heap : Heap) (radius : Double) (center : Addr) (type : String) (n : Addr) :
    Prop :=
  n ≠ center ∧ (heap n)._exists = true ∧ (type = "all" ∨ (heap n).isType type = true) ∧
    Double.le (Double.sub ((heap center)._position.distance (heap n)._position) radius)
      Double.literal_0_0001 = true

/-- The executable form of `isNeighbour`: the conjunction of the guards of `operator()`. -/
def passesFilter (heap : Heap) (radius : Double) (center : Addr) (type : String) (n : Addr) :
    Bool :=
  decide (n ≠ center) && (heap n)._exists && (decide (type = "all") || (heap n).isType type) &&
    Double.le (Double.sub ((heap center)._position.distance (heap n)._position) radius)
      Double.literal_0_0001

end Engine

namespace GujaratCellphones

open Engine (Point2D)

/-! ## `HerderWorld::createAgents`: the ids of the created agents -/

/-- What `oss << i` appends for a loop counter `i` (an `int` that is never negative): the
decimal digits of `i`, most significant first, without leading zeros, `"0"` for zero. -/
def decimal (n : Nat) : String :=
  String.mk (if n = 0 then ['0'] else (Nat.digits 10 n).reverse.map Nat.digitChar)

/-- The id of village `i`: `oss << "Village_" << i`. -/
def villageId (i : Nat) : String :=
  "Village_" ++ decimal i

/-- The id of herder `j` of village `i`: `ossH << "Herder_vil" << i << "_" << j`. -/
def herderId (i j : Nat) : String :=
  "Herder_vil" ++ decimal i ++ "_" ++ decimal j

/-- The ids of the agents `HerderWorld::createAgents` passes to `addAgent`, in the order of
the calls: for each `i` from `0` while `i < _numVillages` the village `i`, then for each `j`
from `0` while `j < _numAgentsPerVillage` the herder `j` of village `i`. -/
def createAgents (_numVillages _numAgentsPerVillage : Int) : List String :=
  (List.range _numVillages.toNat).flatMap fun i =>
    villageId i :: (List.range _numAgentsPerVillage.toNat).map fun j => herderId i j

/-! ## The rasters and the yearly biomass -/

/-- The raster indices used by `HerderWorld`. -/
inductive Rasters where
  | eResources
  | eSoilQuality
  | eResourcesFraction
  deriving DecidableEq, Repr

/-- The arguments of `setInitValues(minValue, maxValue, defaultValue)`. -/
structure InitValues where
  minValue : Int
  maxValue : Int
  defaultValue : Int
  deriving DecidableEq, Repr

/-- The bounds `HerderWorld::createRasters` gives each indexed raster through `setInitValues`:
`(0, std::numeric_limits<int>::max(), 0)` for `"resources"`, `(0, 10, 5)` for
`"soil quality"` and `(0, 100, 0)` for `"resourcesFraction"`. -/
def createRasters (r : Rasters) : InitValues :=
  match r with
  | .eResources => { minValue := 0, maxValue := 2147483647, defaultValue := 0 }
  | .eSoilQuality => { minValue := 0, maxValue := 10, defaultValue := 5 }
  | .eResourcesFraction => { minValue := 0, maxValue := 100, defaultValue := 0 }

/-- The fields of `HerderWorldConfig` read by the embedded methods.  The class is declared in
a header that is not among the sources; the two fields that enter the `float` computation of
`recomputeYearlyBiomass` are taken as exact numbers. -/
structure HerderWorldConfig where
  _numVillages : Int
  _numAgentsPerVillage : Int
  _daysDrySeason : Int
  _rainHistoricalDistribMean : ℚ
  _averageResources : ℚ
  deriving DecidableEq, Repr

/-- The rectangle `Engine::Rectangle<int>`: an origin and a size. -/
structure Rectangle where
  _origin : Point2D
  _size : Point2D
  deriving DecidableEq, Repr

/-- One call `setValue(index, position, value)`. -/
structure SetValueCall where
  index : Rasters
  position : Point2D
  value : Int
  deriving DecidableEq, Repr

/-- The collaborators of `HerderWorld` whose code is not among the sources, taken as
parameters: the climate (`Climate::getRain`, `Climate::computeRainValue`) and the raster
store of `Engine::World` (`getValue`, `setValue`). -/
structure Collaborators (Climate Store : Type) where
  getRain : Climate → ℚ
  computeRainValue : Climate → Climate
  getValue : Store → Rasters → Point2D → Int
  setValue : Store → Rasters → Point2D → Int → Store

/-- The state of a `HerderWorld`: the members the embedded methods read or write, the raster
store of the base class, and the sequence of `setValue` calls made so far.  The two tables
`_dailyDecrease` and `_maxResources` are declared in `HerderWorld.hxx`, which is not among the
sources; they are taken to hold the `float` values assigned to them, exactly. -/
structure HerderWorld (Climate Store : Type) where
  _config : HerderWorldConfig
  _climate : Climate
  _step : Int
  _overlapBoundaries : Rectangle
  _dailyDecrease : List ℚ
  _maxResources : List ℚ
  store : Store
  setValueCalls : List SetValueCall

variable {Climate Store : Type}

/-- The call `getValue(index, position)` of the base class. -/
def HerderWorld.getValue (env : Collaborators Climate Store) (w : HerderWorld Climate Store)
    (index : Rasters) (position : Point2D) : Int :=
  env.getValue w.store index position

/-- The call `setValue(index, position, value)` of the base class, recorded in
`setValueCalls`. -/
def HerderWorld.setValue (env : Collaborators Climate Store) (w : HerderWorld Climate Store)
    (index : Rasters) (position : Point2D) (value : Int) : HerderWorld Climate Store :=
  { w with
    store := env.setValue w.store index position value
    setValueCalls := w.setValueCalls ++ [{ index := index, position := position, value := value }] }

/-- The conversion of a `float` to `int`: truncation toward zero. -/
def floatToInt (q : ℚ) : Int :=
  if 0 ≤ q then ⌊q⌋ else ⌈q⌉

/-- The read `v.at(k)` with an `int` index: `std::out_of_range` (here `none`) when `k`, taken
as a `size_t`, is not below `v.size()`. -/
def vectorAt (v : List ℚ) (k : Int) : Option ℚ :=
  if 0 ≤ k then v.get? k.toNat else none

/-- The write `v.at(k) = x`: `std::out_of_range` (here `none`) when `k` is not below
`v.size()`. -/
def vectorSet (v : List ℚ) (k : Nat) (x : ℚ) : Option (List ℚ) :=
  if k < v.length then some (v.set k x) else none

/-- The cells visited by the two nested loops over `_overlapBoundaries`: `_x` from
`_origin._x` while below `_origin._x + _size._x`, and for each `_x`, `_y` from `_origin._y`
while below `_origin._y + _size._y`. -/
def cells (b : Rectangle) : List Point2D :=
  (List.range b._size._x.toNat).flatMap fun dx =>
    (List.range b._size._y.toNat).map fun dy =>
      { _x := b._origin._x + (dx : Int), _y := b._origin._y + (dy : Int) }

/-- The constructor `HerderWorld::HerderWorld`: `_dailyDecrease.resize(11)` and
`_maxResources.resize(11)` leave both vectors with eleven zeros. -/
def HerderWorld.ctor (config : HerderWorldConfig) (climate : Climate) (step : Int)
    (overlapBoundaries : Rectangle) (store : Store) : HerderWorld Climate Store :=
  { _config := config, _climate := climate, _step := step
    _overlapBoundaries := overlapBoundaries
    _dailyDecrease := List.replicate 11 0, _maxResources := List.replicate 11 0
    store := store, setValueCalls := [] }

/-- The body of the first loop of `recomputeYearlyBiomass` for the level `i`.  The division
`decrease/(_config._daysDrySeason-1)` is a `float` division; for `_daysDrySeason = 1` it
divides by zero, where C++ gives an infinity or a NaN and `ℚ` gives `0`. -/
def recomputeLevel (rainWeight : ℚ) (w : HerderWorld Climate Store) (i : Nat) :
    Except (HerderWorld Climate Store) (HerderWorld Climate Store) :=
  let maxValue : ℚ := ((i : ℚ) * rainWeight * w._config._averageResources) / 5
  match vectorSet w._maxResources i maxValue with
  | none => .error w
  | some maxResources =>
    let w1 := { w with _maxResources := maxResources }
    let decrease : ℚ := maxValue * 1
    match vectorSet w1._dailyDecrease i (decrease / ((w1._config._daysDrySeason - 1 : Int) : ℚ)) with
    | none => .error w1
    | some dailyDecrease => .ok { w1 with _dailyDecrease := dailyDecrease }

/-- The body of the second loop of `recomputeYearlyBiomass` for the cell `index`. -/
def recomputeCell (env : Collaborators Climate Store) (w : HerderWorld Climate Store)
    (index : Point2D) : Except (HerderWorld Climate Store) (HerderWorld Climate Store) :=
  match vectorAt w._maxResources (w.getValue env .eSoilQuality index) with
  | none => .error w
  | some maxResources => .ok (w.setValue env .eResources index (floatToInt maxResources))

/-- The method `HerderWorld::recomputeYearlyBiomass`.  The result is `.ok` with the final
state, or `.error` with the state reached when an `at` threw.  The quotient `rainWeight` is a
`float`, computed here as an exact division. -/
def recomputeYearlyBiomass (env : Collaborators Climate Store) (w : HerderWorld Climate Store) :
    Except (HerderWorld Climate Store) (HerderWorld Climate Store) :=
  let rainWeight : ℚ := env.getRain w._climate / w._config._rainHistoricalDistribMean
  match (List.range w._maxResources.length).foldlM (recomputeLevel rainWeight) w with
  | .error w1 => .error w1
  | .ok w1 => (cells w1._overlapBoundaries).foldlM (recomputeCell env) w1

/-- The method `HerderWorld::isWetSeason`: `_step % _config._daysDrySeason == 0`, with the
remainder of C++ (truncated division). -/
def isWetSeason (w : HerderWorld Climate Store) : Bool :=
  if w._step.tmod w._config._daysDrySeason = 0 then true else false

/-- The method `HerderWorld::stepEnvironment`. -/
def stepEnvironment (env : Collaborators Climate Store) (w : HerderWorld Climate Store) :
    Except (HerderWorld Climate Store) (HerderWorld Climate Store) :=
  if isWetSeason w then
    recomputeYearlyBiomass env { w with _climate := env.computeRainValue w._climate }
  else
    .ok w

/-- The body of the loops of `HerderWorld::updateResources` for the cell `index`. -/
def updateResourcesCell (env : Collaborators Climate Store) (w : HerderWorld Climate Store)
    (index : Point2D) : Except (HerderWorld Climate Store) (HerderWorld Climate Store) :=
  let currentValue : Int := w.getValue env .eResources index
  match vectorAt w._dailyDecrease (w.getValue env .eSoilQuality index) with
  | none => .error w
  | some decrease =>
    let currentFraction : ℚ := ((w.getValue env .eResourcesFraction index : Int) : ℚ) / 100
    let newValue : ℚ := max 0 ((currentValue : ℚ) + currentFraction - decrease)
    let currentValue : Int := floatToInt newValue
    let fraction : ℚ := 100 * (newValue - (currentValue : ℚ))
    let w1 := w.setValue env .eResources index currentValue
    .ok (w1.setValue env .eResourcesFraction index (floatToInt fraction))

/-- The method `HerderWorld::updateResources`. -/
def updateResources (env : Collaborators Climate Store) (w : HerderWorld Climate Store) :
    Except (HerderWorld Climate Store) (HerderWorld Climate Store) :=
  (cells w._overlapBoundaries).foldlM (updateResourcesCell env) w

/-- The state carried by a result: the final state, or the state at the throw. -/
def finalState (r : Except (HerderWorld Climate Store) (HerderWorld Climate Store)) :
    HerderWorld Climate Store :=
  match r with
  | .ok w => w
  | .error w => w

/-- A raster store for examples: a value for each raster and cell. -/
abbrev GridStore := Rasters → Point2D → Int

/-- Collaborators for examples: the climate is its rain value, the next rain value is one
more, and the raster store is a `GridStore` updated in place. -/
def gridCollaborators : Collaborators ℚ GridStore :=
  { getRain := fun c => c
    computeRainValue := fun c => c + 1
    getValue := fun s r p => s r p
    setValue := fun s r p v => fun r1 p1 => if r1 = r ∧ p1 = p then v else s r1 p1 }

/-- A configuration for examples: a dry season of `5` days, mean rain `2`, average resources
`10`. -/
def exampleConfig : HerderWorldConfig :=
  { _numVillages := 2, _numAgentsPerVillage := 3, _daysDrySeason := 5
    _rainHistoricalDistribMean := 2, _averageResources := 10 }

/-- A world for examples at step `step`: rain `4`, a `2 × 2` grid at the origin, soil quality
`5` and the other rasters `0` everywhere. -/
def exampleWorld (step : Int) : HerderWorld ℚ GridStore :=
  HerderWorld.ctor exampleConfig 4 step { _origin := ⟨0, 0⟩, _size := ⟨2, 2⟩ }
    (fun r _ => match r with
      | .eSoilQuality => 5
      | _ => 0)

end GujaratCellphones

/-! ## Binary64: the facts used below -/

namespace Double

/-- The literal `0.0001` is the double nearest to `1/10000`: it differs from it by less
than half a unit in the last place, `2 ^ (-67)`, and it is greater than `1/10000`. -/
theorem literal_0_0001_nearest :
    literal_0_0001 = finite 7378697629483821 (-66) ∧
    (2 : ℚ) ^ 52 ≤ 7378697629483821 ∧ (7378697629483821 : ℚ) < 2 ^ 53 ∧
    |(7378697629483821 : ℚ) / 2 ^ 66 - 1 / 10000| < 1 / 2 ^ 67 ∧
    (1 : ℚ) / 10000 < 7378697629483821 / 2 ^ 66 := by
  refine ⟨rfl, by norm_num, by norm_num, ?_, by norm_num⟩
  rw [abs_lt]
  constructor <;> norm_num

/-- Values of the operations at small inputs: conversions of integers and the exact square
roots are exact, `sqrt 2` and `sqrt 18` are the correctly rounded doubles. -/
theorem arithmetic_examples :
    ofInt 3 = finite (3 * 2 ^ 51) (-51) ∧
    sqrt (ofInt 25) = finite (5 * 2 ^ 50) (-50) ∧
    sqrt (ofInt 2) = finite 6369051672525773 (-52) ∧
    sqrt (ofInt 18) = finite 4776788754394329 (-50) ∧
    sub (ofInt 5) (ofInt 3) = finite (2 * 2 ^ 51) (-51) ∧
    le (sub (ofInt 3) (ofInt 3)) literal_0_0001 = true ∧
    le (finite 1 (-10)) literal_0_0001 = false ∧
    add (finite (2 ^ 53) 0) (finite 1 0) = finite (2 ^ 52) 1 ∧
    add (finite (2 ^ 53 + 2) 0) (finite 1 0) = finite (2 ^ 52 + 2) 1 ∧
    mul (finite (2 ^ 53 - 1) 970) (finite 4 0) = inf false := by
  decide!

theorem log2Loop_spec (fuel n : Nat) (h1 : 1 ≤ n) (h2 : n ≤ fuel) :
    2 ^ log2Loop fuel n ≤ n ∧ n < 2 ^ (log2Loop fuel n + 1) := by
  induction fuel generalizing n with
  | zero => omega
  | succ fuel ih =>
    unfold log2Loop
    by_cases h : n < 2
    · rw [if_pos h]
      simp
      omega
    · rw [if_neg h]
      have hhalf := ih (n / 2) (by omega) (by omega)
      obtain ⟨ha, hb⟩ := hhalf
      constructor
      · rw [pow_succ]; omega
      · rw [pow_succ]; omega

/-- The function `log2` gives the position of the leading bit: `2 ^ log2 n ≤ n < 2 ^ (log2 n + 1)`
for `n ≥ 1`. -/
theorem log2_spec (n : Nat) (h : 1 ≤ n) : 2 ^ log2 n ≤ n ∧ n < 2 ^ (log2 n + 1) :=
  log2Loop_spec n n h (le_refl n)

theorem isqrtLoop_spec (n b r : Nat) (h1 : r * r ≤ n) (h2 : n < (r + 2 ^ b) * (r + 2 ^ b)) :
    isqrtLoop n b r * isqrtLoop n b r ≤ n ∧
      n < (isqrtLoop n b r + 1) * (isqrtLoop n b r + 1) := by
  induction b generalizing r with
  | zero =>
    unfold isqrtLoop
    simpa using ⟨h1, h2⟩
  | succ b ih =>
    unfold isqrtLoop
    by_cases h : (r + 2 ^ b) * (r + 2 ^ b) ≤ n
    · rw [if_pos h]
      apply ih _ h
      have : r + 2 ^ b + 2 ^ b = r + 2 ^ (b + 1) := by rw [pow_succ]; omega
      rw [this]
      exact h2
    · rw [if_neg h]
      exact ih _ h1 (by omega)

/-- The function `isqrt` is the integer square root: `isqrt n ^ 2 ≤ n < (isqrt n + 1) ^ 2`. -/
theorem isqrt_spec (n : Nat) :
    isqrt n * isqrt n ≤ n ∧ n < (isqrt n + 1) * (isqrt n + 1) := by
  unfold isqrt
  apply isqrtLoop_spec
  · simp
  · by_cases h : n = 0
    · subst h; simp
    · have hl := (log2_spec n (by omega)).2
      have hle : log2 n + 1 ≤ 2 * (log2 n / 2 + 1) := by omega
      calc n < 2 ^ (log2 n + 1) := hl
        _ ≤ 2 ^ (2 * (log2 n / 2 + 1)) := Nat.pow_le_pow_right (by norm_num) hle
        _ = (0 + 2 ^ (log2 n / 2 + 1)) * (0 + 2 ^ (log2 n / 2 + 1)) := by
          rw [zero_add, two_mul, pow_add]

/-- A finite double that is not positive is at most `0.0001`. -/
theorem le_literal_of_nonpos (m e : Int) (h : m ≤ 0) :
    le (finite m e) literal_0_0001 = true := by
  simp only [le, literal_0_0001, decide_eq_true_eq]
  exact le_trans (mul_nonpos_of_nonpos_of_nonneg h (by positivity)) (by positivity)

/-- Rounding a number that is not positive gives a double that is at most `0.0001`. -/
theorem le_literal_of_round_nonpos (m e : Int) (h : m ≤ 0) :
    le (round m e) literal_0_0001 = true := by
  unfold round
  by_cases h0 : m = 0
  · rw [if_pos h0]
    exact le_literal_of_nonpos 0 0 (le_refl 0)
  · have hneg : m < 0 := lt_of_le_of_ne h h0
    simp only [h0, if_false, hneg, if_true, decide_True]
    split_ifs <;>
      first
        | rfl
        | exact le_literal_of_nonpos _ _ (neg_nonpos.mpr (Int.natCast_nonneg _))

end Double

namespace Engine

/-! ## The neighbour filter -/

/-- The distance of a point to itself is zero. -/
theorem distance_self (p : Point2D) : p.distance p = Double.finite 0 0 := by
  simp [Point2D.distance, Double.ofInt, Double.round, Double.mul, Double.add, Double.sqrt]

/-- Zero minus a radius that is not negative (`0.0 <= radius` holds) is at most `0.0001`. -/
theorem zero_sub_le_literal (radius : Double)
    (h : Double.le (Double.ofInt 0) radius = true) :
    Double.le (Double.sub (Double.finite 0 0) radius) Double.literal_0_0001 = true := by
  have h0 : Double.ofInt 0 = Double.finite 0 0 := by simp [Double.ofInt, Double.round]
  rw [h0] at h
  cases radius with
  | nan => simp [Double.le] at h
  | inf s =>
    cases s with
    | false => rfl
    | true => simp [Double.le] at h
  | finite m e =>
    simp only [Double.le, decide_eq_true_eq, zero_mul] at h
    have hm : 0 ≤ m := by
      by_contra hneg
      have hlt : m < 0 := lt_of_not_le hneg
      have hpos : (0 : Int) < 2 ^ (e - min 0 e).toNat := by positivity
      have := mul_neg_of_neg_of_pos hlt hpos
      omega
    simp only [Double.sub, Double.neg, Double.add]
    apply Double.le_literal_of_round_nonpos
    have : -m * 2 ^ (e - min 0 e).toNat ≤ 0 :=
      mul_nonpos_of_nonpos_of_nonneg (by omega) (by positivity)
    simpa using this

/-- The guards of `operator()` as one condition. -/
theorem aggregator_call_eq_passes {σ : Type} (execute : σ → Addr → σ) (heap : Heap)
    (radius : Double) (center : Addr) (type : String) (st : σ) (n : Addr) :
    aggregator.call execute heap (aggregator.ctor radius center type) st n =
      if passesFilter heap radius center type n = true then execute st n else st := by
  unfold aggregator.call aggregator.ctor passesFilter
  by_cases h1 : n = center <;> by_cases h2 : (heap n)._exists = true <;>
    by_cases h3 : type = "all" <;> by_cases h4 : (heap n).isType type = true <;>
    by_cases h5 : Double.le
      (Double.sub ((heap center)._position.distance (heap n)._position) radius)
      Double.literal_0_0001 = true <;> simp [h1, h2, h3, h4, h5]

theorem passesFilter_iff (heap : Heap) (radius : Double) (center : Addr) (type : String)
    (n : Addr) :
    passesFilter heap radius center type n = true ↔ isNeighbour heap radius center type n := by
  unfold passesFilter isNeighbour
  simp [and_assoc]

/-- Running `aggregatorGet` from any state appends the agents that pass the filter. -/
theorem aggregatorGet_foldl_eq (heap : Heap) (radius : Double) (center : Addr) (type : String)
    (agents : List Addr) (s : aggregatorGet) :
    agents.foldl (aggregator.call aggregatorGet.execute heap (aggregator.ctor radius center type))
        s = { _neighbors := s._neighbors ++ agents.filter (passesFilter heap radius center type) } := by
  induction agents generalizing s with
  | nil => simp
  | cons a as ih =>
    rw [List.foldl_cons, ih, aggregator_call_eq_passes]
    by_cases h : passesFilter heap radius center type a = true
    · simp [h, aggregatorGet.execute]
    · simp [h]

/-- Running `aggregatorCount` from any state adds the number of agents that pass the filter. -/
theorem aggregatorCount_foldl_eq (heap : Heap) (radius : Double) (center : Addr) (type : String)
    (agents : List Addr) (s : aggregatorCount) :
    agents.foldl (aggregator.call aggregatorCount.execute heap
        (aggregator.ctor radius center type)) s =
      { _count := s._count + ((agents.filter (passesFilter heap radius center type)).length : Int) } := by
  induction agents generalizing s with
  | nil => simp
  | cons a as ih =>
    rw [List.foldl_cons, ih, aggregator_call_eq_passes]
    by_cases h : passesFilter heap radius center type a = true
    · simp [h, aggregatorCount.execute]; ring
    · simp [h]

theorem aggregatorGet_run_neighbors (heap : Heap) (radius : Double) (center : Addr) (type : String)
    (agents : List Addr) :
    (aggregatorGet.run heap radius center type agents)._neighbors =
      agents.filter (passesFilter heap radius center type) := by
  unfold aggregatorGet.run
  rw [aggregatorGet_foldl_eq]
  simp [aggregatorGet.init]

theorem aggregatorCount_run_count (heap : Heap) (radius : Double) (center : Addr) (type : String)
    (agents : List Addr) :
    (aggregatorCount.run heap radius center type agents)._count =
      ((agents.filter (passesFilter heap radius center type)).length : Int) := by
  unfold aggregatorCount.run
  rw [aggregatorCount_foldl_eq]
  simp [aggregatorCount.init]

/-- C1: for every center, radius, type filter and agent `n` fed to `aggregator::operator()`,
the terminal action `execute(n)` is invoked if and only if `n` is not the center itself, `n`
exists, the filter is `"all"` or `n` is of that type, and the Euclidean distance between the
two positions minus the radius is at most `0.0001` (`distance - radius <= 0.0001`, evaluated
in `double` as the code does, for every `double` radius, infinities and NaN included): the
collecting action records `n` exactly then, and for every terminal action and state the call
is `execute st n` when the condition holds and leaves the state alone when it does not.  In
particular a distinct existing agent of an accepted type that stands on the center's cell is
matched for every radius `≥ 0`. -/
theorem aggregator_call_executes_iff (heap : Heap) (radius : Double) (center : Addr)
    (type : String) (n : Addr) :
    ((aggregator.call aggregatorGet.execute heap (aggregator.ctor radius center type)
        aggregatorGet.init n)._neighbors = [n] ↔ isNeighbour heap radius center type n) ∧
    (∀ (σ : Type) (execute : σ → Addr → σ) (st : σ),
      (isNeighbour heap radius center type n →
        aggregator.call execute heap (aggregator.ctor radius center type) st n = execute st n) ∧
      (¬ isNeighbour heap radius center type n →
        aggregator.call execute heap (aggregator.ctor radius center type) st n = st)) ∧
    (n ≠ center → (heap n)._exists = true → (type = "all" ∨ (heap n).isType type = true) →
      (heap n)._position = (heap center)._position →
      Double.le (Double.ofInt 0) radius = true →
      ∀ (σ : Type) (execute : σ → Addr → σ) (st : σ),
        aggregator.call execute heap (aggregator.ctor radius center type) st n =
          execute st n) := by
  have hsame : n ≠ center → (heap n)._exists = true →
      (type = "all" ∨ (heap n).isType type = true) →
      (heap n)._position = (heap center)._position →
      Double.le (Double.ofInt 0) radius = true →
      isNeighbour heap radius center type n := by
    intro h1 h2 h3 h4 h5
    refine ⟨h1, h2, h3, ?_⟩
    rw [h4, distance_self]
    exact zero_sub_le_literal radius h5
  refine ⟨?_, ?_, ?_⟩
  · rw [aggregator_call_eq_passes, ← passesFilter_iff]
    by_cases h : passesFilter heap radius center type n = true
    · simp [h, aggregatorGet.execute, aggregatorGet.init]
    · simp [h, aggregatorGet.init]
  · intro σ execute st
    rw [aggregator_call_eq_passes, ← passesFilter_iff]
    constructor
    · intro h; simp [h]
    · intro h; simp [h]
  · intro h1 h2 h3 h4 h5 σ execute st
    rw [aggregator_call_eq_passes, if_pos ((passesFilter_iff _ _ _ _ _).mpr (hsame h1 h2 h3 h4 h5))]

/-- The scenario instance of C1: `B` at distance `3` of `A` is matched for radius `3` and
filter `"all"`, so the call on it is the terminal action. -/
theorem aggregator_call_executes_iff_witness :
    isNeighbour scenarioHeap (Double.ofInt 3) 0 "all" 1 ∧
      aggregator.call aggregatorCount.execute scenarioHeap
        (aggregator.ctor (Double.ofInt 3) 0 "all") aggregatorCount.init 1 =
        aggregatorCount.execute aggregatorCount.init 1 :=
  have h : isNeighbour scenarioHeap (Double.ofInt 3) 0 "all" 1 :=
    (aggregator_call_executes_iff scenarioHeap (Double.ofInt 3) 0 "all" 1).1.mp (by decide!)
  ⟨h, ((aggregator_call_executes_iff scenarioHeap (Double.ofInt 3) 0 "all" 1).2.1 _ _ _).1 h⟩

/-- The filter at radii where `double` and exact arithmetic part: the agent at `(3,3)` is
collected for the radius `4776676164403645 * 2 ^ (-50)`, an agent on the center's cell is
collected for the radius `-0.0001`, every agent in reach of the type filter is collected for
the radius `+inf`, and none is for the radii `-inf` and NaN. -/
theorem aggregator_call_double_radii :
    (aggregatorGet.run (fun a => if a = 1 then ⟨"x_1", ⟨3, 3⟩, true, "x"⟩
        else ⟨"x_0", ⟨0, 0⟩, true, "x"⟩) (Double.finite 4776676164403645 (-50)) 0 "all"
        [0, 1])._neighbors = [1] ∧
    (aggregatorGet.run (fun _ => ⟨"x", ⟨7, 7⟩, true, "x"⟩) (Double.neg Double.literal_0_0001)
        0 "all" [0, 1])._neighbors = [1] ∧
    (aggregatorGet.run scenarioHeap (Double.inf false) 0 "all" [0, 1, 2])._neighbors = [1, 2] ∧
    (aggregatorGet.run scenarioHeap (Double.inf true) 0 "all" [0, 1, 2])._neighbors = [] ∧
    (aggregatorGet.run scenarioHeap Double.nan 0 "all" [0, 1, 2])._neighbors = [] := by
  decide!

/-- C2: over every sequence of agents, with the same center, radius and type filter,
`aggregatorCount` ends with `_count` equal to the number of elements `aggregatorGet` has
collected in `_neighbors`. -/
theorem aggregatorCount_eq_aggregatorGet_size (heap : Heap) (radius : Double) (center : Addr)
    (type : String) (agents : List Addr) :
    (aggregatorCount.run heap radius center type agents)._count =
      ((aggregatorGet.run heap radius center type agents)._neighbors.length : Int) := by
  rw [aggregatorCount_run_count, aggregatorGet_run_neighbors]

/-- C3: with `A` at `(0,0)` of type `"x"`, `B` at `(3,0)` of type `"x"` and `C` at `(5,0)` of
type `"y"`, the query centred on `A` over the agents `A, B, C` collects exactly `B` for
radius `3` and type `"all"`, nothing for radius `3` and type `"y"`, and exactly `C` for
radius `5` and type `"y"`. -/
theorem neighbour_query_scenario :
    (aggregatorGet.run scenarioHeap (Double.ofInt 3) 0 "all" [0, 1, 2])._neighbors = [1] ∧
    (aggregatorGet.run scenarioHeap (Double.ofInt 3) 0 "y" [0, 1, 2])._neighbors = [] ∧
    (aggregatorGet.run scenarioHeap (Double.ofInt 5) 0 "y" [0, 1, 2])._neighbors = [2] := by
  decide!

/-- C6, refuted: with the center at `(0,0)`, an existing agent at `(3,4)` and radius `5`, the
agent passes the identity, existence and type checks and is collected, although its Manhattan
distance `7` is not within the radius, even with the tolerance. -/
theorem manhattan_radius_counterexample :
    (1 : Addr) ≠ 0 ∧ (diagonalHeap 1)._exists = true ∧
    (aggregatorGet.run diagonalHeap (Double.ofInt 5) 0 "all" [1])._neighbors = [1] ∧
    (diagonalHeap 0)._position.manhattan (diagonalHeap 1)._position = 7 ∧
    ¬ ((7 : ℚ) ≤ 5 + 1 / 10000) ∧
    Double.le (Double.sub
      (Double.ofInt ((diagonalHeap 0)._position.manhattan (diagonalHeap 1)._position))
      (Double.ofInt 5)) Double.literal_0_0001 = false := by
  refine ⟨by decide, rfl, by decide!, by decide, by norm_num, by decide!⟩

/-- C6, amended: for every sequence of agents, center, radius, type filter and agent `n` of
the sequence that passes the identity, existence and type checks, `n` is collected if and
only if the Euclidean distance between the two positions, `sqrt(dx*dx + dy*dy)` computed in
`double`, minus the radius is at most `0.0001`, subtraction and comparison in `double`. -/
theorem neighbours_within_euclidean_radius (heap : Heap) (radius : Double) (center : Addr)
    (type : String) (agents : List Addr) (n : Addr) (hmem : n ∈ agents) (hid : n ≠ center)
    (hex : (heap n)._exists = true) (hty : type = "all" ∨ (heap n).isType type = true) :
    n ∈ (aggregatorGet.run heap radius center type agents)._neighbors ↔
      Double.le (Double.sub
        (Double.sqrt (Double.add
          (Double.mul (Double.ofInt ((heap center)._position._x - (heap n)._position._x))
            (Double.ofInt ((heap center)._position._x - (heap n)._position._x)))
          (Double.mul (Double.ofInt ((heap center)._position._y - (heap n)._position._y))
            (Double.ofInt ((heap center)._position._y - (heap n)._position._y)))))
        radius) Double.literal_0_0001 = true := by
  rw [aggregatorGet_run_neighbors, List.mem_filter, passesFilter_iff]
  unfold isNeighbour Point2D.distance
  constructor
  · rintro ⟨_, _, _, _, h⟩; exact h
  · intro h; exact ⟨hmem, hid, hex, hty, h⟩

/-- The diagonal instance of amended C6: the agent at `(3,4)`, at distance `5`, is collected
for radius `5` and is not for radius `4`. -/
theorem neighbours_within_euclidean_radius_witness :
    (1 : Addr) ∈ (aggregatorGet.run diagonalHeap (Double.ofInt 5) 0 "all" [1])._neighbors ∧
      (1 : Addr) ∉ (aggregatorGet.run diagonalHeap (Double.ofInt 4) 0 "all" [1])._neighbors :=
  ⟨(neighbours_within_euclidean_radius diagonalHeap (Double.ofInt 5) 0 "all" [1] 1 (by simp)
      (by decide) rfl (Or.inl rfl)).mpr (by decide!),
    fun h => absurd
      ((neighbours_within_euclidean_radius diagonalHeap (Double.ofInt 4) 0 "all" [1] 1 (by simp)
        (by decide) rfl (Or.inl rfl)).mp h) (by decide!)⟩

end Engine

namespace GujaratCellphones

open Engine (Point2D)

variable {Climate Store : Type}

/-! ## Unique ids -/

/-- Reading a decimal numeral back: the value of its digits. -/
theorem decimal_parse (n : Nat) :
    Nat.ofDigits 10 (((decimal n).data.map fun c => c.toNat - 48).reverse) = n := by
  unfold decimal
  by_cases h : n = 0
  · subst h; simp
  · simp only [h, if_false]
    have hmap : ∀ l : List Nat, (∀ d ∈ l, d < 10) →
        (l.map Nat.digitChar).map (fun c => c.toNat - 48) = l := by
      intro l
      induction l with
      | nil => simp
      | cons a as ih =>
        intro hl
        have ha : a < 10 := hl a (List.mem_cons_self _ _)
        have has := ih (fun d hd => hl d (List.mem_cons_of_mem _ hd))
        simp only [List.map_cons, has, List.cons.injEq, and_true]
        interval_cases a <;> decide
    have hlt : ∀ d ∈ (Nat.digits 10 n).reverse, d < 10 := fun d hd =>
      Nat.digits_lt_base (by norm_num) (List.mem_reverse.mp hd)
    rw [hmap _ hlt, List.reverse_reverse, Nat.ofDigits_digits]

theorem decimal_injective : Function.Injective decimal := by
  intro a b h
  rw [← decimal_parse a, ← decimal_parse b, h]

theorem underscore_not_mem_decimal (n : Nat) : '_' ∉ (decimal n).data := by
  unfold decimal
  by_cases h : n = 0
  · subst h; simp
  · simp only [h, if_false, List.mem_map, List.mem_reverse, not_exists, not_and]
    intro d hd
    have hlt : d < 10 := Nat.digits_lt_base (by norm_num) hd
    interval_cases d <;> decide

theorem villageId_injective : Function.Injective villageId := by
  intro a b h
  unfold villageId at h
  have h2 := congrArg String.data h
  simp only [String.data_append] at h2
  exact decimal_injective (String.ext (List.append_cancel_left h2))

theorem herderId_injective (i i1 j j1 : Nat) (h : herderId i j = herderId i1 j1) :
    i = i1 ∧ j = j1 := by
  unfold herderId at h
  have h2 := congrArg String.data h
  simp only [String.data_append, List.append_assoc] at h2
  have h3 := List.append_cancel_left h2
  have h4 : (decimal i).data ++ '_' :: (decimal j).data =
      (decimal i1).data ++ '_' :: (decimal j1).data := h3
  rw [List.append_cons_inj_of_not_mem (underscore_not_mem_decimal i)
    (underscore_not_mem_decimal j)] at h4
  exact ⟨decimal_injective (String.ext h4.1), decimal_injective (String.ext h4.2.2)⟩

theorem villageId_ne_herderId (i i1 j1 : Nat) : villageId i ≠ herderId i1 j1 := by
  intro h
  unfold villageId herderId at h
  have h2 := congrArg String.data h
  simp only [String.data_append, List.append_assoc] at h2
  have h3 : 'V' :: ("illage_".data ++ (decimal i).data) =
      'H' :: ("erder_vil".data ++ ((decimal i1).data ++ ("_".data ++ (decimal j1).data))) := h2
  exact absurd (List.cons.inj h3).1 (by decide)

/-- C4: for every `_numVillages` and `_numAgentsPerVillage` (in particular the non-negative
ones), the ids of the agents `createAgents` passes to `addAgent`, `"Village_<i>"` and
`"Herder_vil<i>_<j>"` with `i` and `j` in decimal, are pairwise distinct. -/
theorem createAgents_ids_nodup (numVillages numAgentsPerVillage : Int) :
    (createAgents numVillages numAgentsPerVillage).Nodup := by
  unfold createAgents
  rw [List.nodup_flatMap]
  constructor
  · intro i _
    rw [List.nodup_cons]
    constructor
    · intro hmem
      obtain ⟨j, _, hj⟩ := List.mem_map.mp hmem
      exact villageId_ne_herderId i i j hj.symm
    · exact List.Nodup.map (fun a b hab => (herderId_injective i i a b hab).2)
        (List.nodup_range _)
  · refine (List.nodup_range _).pairwise_of_forall_ne ?_
    intro a _ b _ hab
    show List.Disjoint _ _
    intro s hs1 hs2
    rw [List.mem_cons, List.mem_map] at hs1 hs2
    rcases hs1 with rfl | ⟨j, _, rfl⟩
    · rcases hs2 with h | ⟨j1, _, h⟩
      · exact hab (villageId_injective h)
      · exact villageId_ne_herderId a b j1 h.symm
    · rcases hs2 with h | ⟨j1, _, h⟩
      · exact villageId_ne_herderId b a j h.symm
      · exact hab (herderId_injective b a j1 j h).1.symm

/-! ## The wet season -/

/-- C7: for every step and every `_daysDrySeason > 0`, `isWetSeason` is true if and only if
the step is a multiple of `_daysDrySeason`, so step `0` is a wet-season step; on those steps
`stepEnvironment` is `recomputeYearlyBiomass` run on the state whose climate has drawn a new
rain value, and on every other step it returns the state unchanged. -/
theorem stepEnvironment_wet_season (env : Collaborators Climate Store)
    (w : HerderWorld Climate Store) (_hD : 0 < w._config._daysDrySeason) :
    (isWetSeason w = true ↔ w._config._daysDrySeason ∣ w._step) ∧
    (w._step = 0 → isWetSeason w = true) ∧
    (w._config._daysDrySeason ∣ w._step →
      stepEnvironment env w =
        recomputeYearlyBiomass env { w with _climate := env.computeRainValue w._climate }) ∧
    (¬ w._config._daysDrySeason ∣ w._step → stepEnvironment env w = .ok w) := by
  have hiff : isWetSeason w = true ↔ w._config._daysDrySeason ∣ w._step := by
    unfold isWetSeason
    rw [Int.dvd_iff_tmod_eq_zero]
    by_cases h : w._step.tmod w._config._daysDrySeason = 0 <;> simp [h]
  refine ⟨hiff, ?_, ?_, ?_⟩
  · intro h0
    rw [hiff, h0]
    exact Int.dvd_zero _
  · intro hdvd
    unfold stepEnvironment
    rw [if_pos (hiff.mpr hdvd)]
  · intro hndvd
    unfold stepEnvironment
    have : ¬ isWetSeason w = true := fun h => hndvd (hiff.mp h)
    rw [if_neg this]

/-- Instances of C7 with a dry season of `5` days: step `10` is a wet-season step, and on
step `7` the environment step leaves the world as it is. -/
theorem stepEnvironment_wet_season_witness :
    isWetSeason (exampleWorld 10) = true ∧
      stepEnvironment gridCollaborators (exampleWorld 7) = .ok (exampleWorld 7) :=
  ⟨(stepEnvironment_wet_season gridCollaborators (exampleWorld 10) (by decide)).1.mpr
      (by show (5 : Int) ∣ 10; decide),
    (stepEnvironment_wet_season gridCollaborators (exampleWorld 7) (by decide)).2.2.2
      (by show ¬ (5 : Int) ∣ 7; decide)⟩

/-! ## The yearly biomass tables -/

theorem recomputeLevel_ok (rainWeight : ℚ) (w : HerderWorld Climate Store) (i : Nat)
    (h1 : i < w._maxResources.length) (h2 : i < w._dailyDecrease.length) :
    recomputeLevel rainWeight w i = .ok { w with
      _maxResources := w._maxResources.set i (((i : ℚ) * rainWeight * w._config._averageResources) / 5)
      _dailyDecrease := w._dailyDecrease.set i
        ((((i : ℚ) * rainWeight * w._config._averageResources) / 5) * 1 /
          ((w._config._daysDrySeason - 1 : Int) : ℚ)) } := by
  unfold recomputeLevel vectorSet
  simp [h1, h2]

/-- The first loop of `recomputeYearlyBiomass` over the levels below `n` does not throw when
both vectors hold at least `n` elements; it fills the first `n` entries of both tables and
leaves everything else. -/
theorem foldlM_recomputeLevel (rainWeight : ℚ) (n : Nat) (w : HerderWorld Climate Store)
    (h1 : n ≤ w._maxResources.length) (h2 : n ≤ w._dailyDecrease.length) :
    ∃ w1, (List.range n).foldlM (recomputeLevel rainWeight) w = .ok w1 ∧
      w1._config = w._config ∧ w1._climate = w._climate ∧ w1._step = w._step ∧
      w1._overlapBoundaries = w._overlapBoundaries ∧ w1.store = w.store ∧
      w1.setValueCalls = w.setValueCalls ∧
      w1._maxResources.length = w._maxResources.length ∧
      w1._dailyDecrease.length = w._dailyDecrease.length ∧
      ∀ i, i < n →
        w1._maxResources.get? i =
          some (((i : ℚ) * rainWeight * w._config._averageResources) / 5) ∧
        w1._dailyDecrease.get? i =
          some ((((i : ℚ) * rainWeight * w._config._averageResources) / 5) * 1 /
            ((w._config._daysDrySeason - 1 : Int) : ℚ)) := by
  induction n with
  | zero => exact ⟨w, by simp [pure, Except.pure]⟩
  | succ n ih =>
    obtain ⟨w1, hrun, hc, hcl, hs, hb, hst, hcalls, hl1, hl2, htab⟩ :=
      ih (Nat.le_of_succ_le h1) (Nat.le_of_succ_le h2)
    have hn1 : n < w1._maxResources.length := by omega
    have hn2 : n < w1._dailyDecrease.length := by omega
    have hrun1 : (List.range (n + 1)).foldlM (recomputeLevel rainWeight) w = .ok { w1 with
        _maxResources :=
          w1._maxResources.set n (((n : ℚ) * rainWeight * w1._config._averageResources) / 5)
        _dailyDecrease := w1._dailyDecrease.set n
          ((((n : ℚ) * rainWeight * w1._config._averageResources) / 5) * 1 /
            ((w1._config._daysDrySeason - 1 : Int) : ℚ)) } := by
      rw [List.range_succ, List.foldlM_append, hrun]
      simp only [List.foldlM_cons, List.foldlM_nil, bind, Except.bind, pure, Except.pure]
      rw [recomputeLevel_ok rainWeight w1 n hn1 hn2]
    refine ⟨_, hrun1, ?_⟩
    · refine ⟨hc, hcl, hs, hb, hst, hcalls, by simp [hl1], by simp [hl2], ?_⟩
      intro i hi
      by_cases hin : i = n
      · subst hin
        simp [List.getElem?_set, hn1, hn2, hc]
      · have hlt : i < n := by omega
        have := htab i hlt
        simp only [List.get?_eq_getElem?] at this ⊢
        rw [List.getElem?_set_ne (Ne.symm hin), List.getElem?_set_ne (Ne.symm hin)]
        exact this

/-- The second loop of `recomputeYearlyBiomass` leaves the two tables as they are, whether it
ends or throws. -/
theorem foldlM_recomputeCell_tables (env : Collaborators Climate Store) (cs : List Point2D)
    (w : HerderWorld Climate Store) :
    (finalState (cs.foldlM (recomputeCell env) w))._maxResources = w._maxResources ∧
    (finalState (cs.foldlM (recomputeCell env) w))._dailyDecrease = w._dailyDecrease := by
  induction cs generalizing w with
  | nil => simp [finalState, pure, Except.pure]
  | cons c cs ih =>
    simp only [List.foldlM_cons, bind, Except.bind]
    unfold recomputeCell
    cases h : vectorAt w._maxResources (w.getValue env .eSoilQuality c) with
    | none => simp [finalState]
    | some v =>
      simp only []
      have := ih (w.setValue env .eResources c (floatToInt v))
      simpa [HerderWorld.setValue] using this

theorem iterate_sub (d : ℚ) (n : Nat) (v : ℚ) :
    Nat.iterate (fun x => x - d) n v = v - (n : ℚ) * d := by
  induction n generalizing v with
  | zero => simp
  | succ n ih =>
    rw [Function.iterate_succ_apply, ih]
    push_cast
    ring

/-- C8: after `recomputeYearlyBiomass` on a world whose two tables have the eleven entries
the constructor gives them, for every level `i` in `0..10` and every `_daysDrySeason > 1`,
`_maxResources[i]` is `i * rainWeight * _averageResources / 5` with
`rainWeight = rain / _rainHistoricalDistribMean`, `_dailyDecrease[i] * (_daysDrySeason - 1)` is
`_maxResources[i]`, and subtracting the daily decrease `_daysDrySeason - 1` times from the
maximum gives exactly `0`. -/
theorem recomputeYearlyBiomass_tables (env : Collaborators Climate Store)
    (w : HerderWorld Climate Store) (hmax : w._maxResources.length = 11)
    (hdec : w._dailyDecrease.length = 11) (hD : 1 < w._config._daysDrySeason)
    (i : Nat) (hi : i ≤ 10) :
    ∃ maxValue decrease : ℚ,
      (finalState (recomputeYearlyBiomass env w))._maxResources.get? i = some maxValue ∧
      (finalState (recomputeYearlyBiomass env w))._dailyDecrease.get? i = some decrease ∧
      maxValue = (i : ℚ) * (env.getRain w._climate / w._config._rainHistoricalDistribMean) *
        w._config._averageResources / 5 ∧
      decrease * ((w._config._daysDrySeason - 1 : Int) : ℚ) = maxValue ∧
      Nat.iterate (fun v => v - decrease) (w._config._daysDrySeason - 1).toNat maxValue = 0 := by
  obtain ⟨w1, hrun, _, _, _, _, _, _, _, _, htab⟩ :=
    foldlM_recomputeLevel (env.getRain w._climate / w._config._rainHistoricalDistribMean)
      w._maxResources.length w (le_refl _) (by omega)
  obtain ⟨hm, hd⟩ := htab i (by omega)
  have hfinal : finalState (recomputeYearlyBiomass env w) =
      finalState ((cells w1._overlapBoundaries).foldlM (recomputeCell env) w1) := by
    unfold recomputeYearlyBiomass
    simp only [hrun]
  obtain ⟨ht1, ht2⟩ := foldlM_recomputeCell_tables env (cells w1._overlapBoundaries) w1
  have hne : ((w._config._daysDrySeason - 1 : Int) : ℚ) ≠ 0 := by
    have : (0 : Int) < w._config._daysDrySeason - 1 := by omega
    exact_mod_cast this.ne'
  refine ⟨_, _, (by rw [hfinal, ht1]; exact hm), (by rw [hfinal, ht2]; exact hd), rfl, ?_, ?_⟩
  · rw [mul_one, div_mul_cancel₀ _ hne]
  · rw [iterate_sub]
    have hcast : (((w._config._daysDrySeason - 1).toNat : Nat) : ℚ) =
        ((w._config._daysDrySeason - 1 : Int) : ℚ) := by
      have h0 : (0 : Int) ≤ w._config._daysDrySeason - 1 := by omega
      have := Int.toNat_of_nonneg h0
      exact_mod_cast congrArg (fun z : Int => (z : ℚ)) this
    rw [hcast]
    generalize ((w._config._daysDrySeason - 1 : Int) : ℚ) = days at hne ⊢
    generalize (i : ℚ) * (env.getRain w._climate / w._config._rainHistoricalDistribMean) *
      w._config._averageResources / 5 = m
    field_simp

/-- An instance of C8: with rain `4`, mean rain `2`, average resources `10` and a dry season
of `5` days, level `5` gets the yearly maximum `20` and the daily decrease `5`. -/
theorem recomputeYearlyBiomass_tables_witness :
    (finalState (recomputeYearlyBiomass gridCollaborators (exampleWorld 0)))._maxResources.get? 5
        = some 20 ∧
      (finalState (recomputeYearlyBiomass gridCollaborators (exampleWorld 0)))._dailyDecrease.get? 5
        = some 5 := by
  obtain ⟨m, d, h1, h2, h3, h4, _⟩ :=
    recomputeYearlyBiomass_tables gridCollaborators (exampleWorld 0) rfl rfl (by decide) 5
      (by decide)
  have hm : m = 20 := by
    rw [h3]
    simp [exampleWorld, HerderWorld.ctor, exampleConfig, gridCollaborators]
    norm_num
  have hd : d = 5 := by
    have h5 : d * 4 = 20 := by
      rw [← hm, ← h4]
      simp [exampleWorld, HerderWorld.ctor, exampleConfig]
    linarith
  rw [h1, h2, hm, hd]
  exact ⟨rfl, rfl⟩

/-! ## The daily update of the resources -/

theorem floatToInt_nonneg (q : ℚ) (h : 0 ≤ q) : 0 ≤ floatToInt q := by
  unfold floatToInt
  rw [if_pos h]
  exact Int.floor_nonneg.mpr h

/-- The two values written for one cell: the new resource value is not negative and the new
fraction lies between `0` and `99`. -/
theorem updateResources_values (currentValue storedFraction : Int) (decrease : ℚ) :
    0 ≤ floatToInt (max 0 ((currentValue : ℚ) + (storedFraction : ℚ) / 100 - decrease)) ∧
    0 ≤ floatToInt (100 * (max 0 ((currentValue : ℚ) + (storedFraction : ℚ) / 100 - decrease) -
      ((floatToInt (max 0 ((currentValue : ℚ) + (storedFraction : ℚ) / 100 - decrease)) : Int) : ℚ))) ∧
    floatToInt (100 * (max 0 ((currentValue : ℚ) + (storedFraction : ℚ) / 100 - decrease) -
      ((floatToInt (max 0 ((currentValue : ℚ) + (storedFraction : ℚ) / 100 - decrease)) : Int) : ℚ)))
      ≤ 99 := by
  have hnv : (0 : ℚ) ≤ max 0 ((currentValue : ℚ) + (storedFraction : ℚ) / 100 - decrease) :=
    le_max_left _ _
  generalize max 0 ((currentValue : ℚ) + (storedFraction : ℚ) / 100 - decrease) = newValue at *
  have hfl : floatToInt newValue = ⌊newValue⌋ := by
    unfold floatToInt
    rw [if_pos hnv]
  rw [hfl]
  have h1 : ((⌊newValue⌋ : Int) : ℚ) ≤ newValue := Int.floor_le newValue
  have h2 : newValue < ((⌊newValue⌋ : Int) : ℚ) + 1 := Int.lt_floor_add_one newValue
  have hf0 : (0 : ℚ) ≤ 100 * (newValue - ((⌊newValue⌋ : Int) : ℚ)) := by linarith
  have hf1 : 100 * (newValue - ((⌊newValue⌋ : Int) : ℚ)) < ((100 : Int) : ℚ) := by
    push_cast
    linarith
  refine ⟨Int.floor_nonneg.mpr hnv, floatToInt_nonneg _ hf0, ?_⟩
  have hfl2 : floatToInt (100 * (newValue - ((⌊newValue⌋ : Int) : ℚ))) =
      ⌊100 * (newValue - ((⌊newValue⌋ : Int) : ℚ))⌋ := by
    unfold floatToInt
    rw [if_pos hf0]
  rw [hfl2]
  have := Int.floor_lt.mpr hf1
  omega

/-- The calls of `setValue` of one cell: none when `at` throws, else the new resource value
and the new fraction, both within the bounds given by `createRasters`. -/
theorem updateResourcesCell_calls (env : Collaborators Climate Store)
    (w : HerderWorld Climate Store) (index : Point2D) :
    ∃ written : List SetValueCall,
      (finalState (updateResourcesCell env w index)).setValueCalls = w.setValueCalls ++ written ∧
      ∀ e ∈ written,
        (e.index = .eResources ∧ (createRasters .eResources).minValue ≤ e.value) ∨
        (e.index = .eResourcesFraction ∧
          (createRasters .eResourcesFraction).minValue ≤ e.value ∧
          e.value ≤ (createRasters .eResourcesFraction).maxValue) := by
  unfold updateResourcesCell
  cases h : vectorAt w._dailyDecrease (w.getValue env .eSoilQuality index) with
  | none => exact ⟨[], by simp [finalState], by simp⟩
  | some decrease =>
    obtain ⟨h1, h2, h3⟩ := updateResources_values (w.getValue env .eResources index)
      (w.getValue env .eResourcesFraction index) decrease
    refine ⟨[{ index := .eResources, position := index
               value := floatToInt (max 0 (((w.getValue env .eResources index : Int) : ℚ) +
                 ((w.getValue env .eResourcesFraction index : Int) : ℚ) / 100 - decrease)) },
             { index := .eResourcesFraction, position := index
               value := floatToInt (100 * (max 0 (((w.getValue env .eResources index : Int) : ℚ) +
                 ((w.getValue env .eResourcesFraction index : Int) : ℚ) / 100 - decrease) -
                 ((floatToInt (max 0 (((w.getValue env .eResources index : Int) : ℚ) +
                   ((w.getValue env .eResourcesFraction index : Int) : ℚ) / 100 - decrease)) : Int)
                   : ℚ))) }],
      by simp [finalState, HerderWorld.setValue], ?_⟩
    intro e he
    simp only [List.mem_cons, List.mem_singleton, List.not_mem_nil, or_false] at he
    rcases he with rfl | rfl
    · left
      exact ⟨rfl, h1⟩
    · right
      exact ⟨rfl, h2, le_trans h3 (by decide)⟩

/-- C5: every value `updateResources` writes with `setValue`, whatever the current resource
values, the stored fractions and the daily decreases, respects the bounds given by
`createRasters`: the calls it adds write either a value `≥ 0` (the minimum) to the
`"resources"` raster or a value in `[0, 100]` to the `"resourcesFraction"` raster. -/
theorem updateResources_writes_within_bounds (env : Collaborators Climate Store)
    (w : HerderWorld Climate Store) :
    ∃ written : List SetValueCall,
      (finalState (updateResources env w)).setValueCalls = w.setValueCalls ++ written ∧
      ∀ e ∈ written,
        (e.index = .eResources ∧ (createRasters .eResources).minValue ≤ e.value) ∨
        (e.index = .eResourcesFraction ∧
          (createRasters .eResourcesFraction).minValue ≤ e.value ∧
          e.value ≤ (createRasters .eResourcesFraction).maxValue) := by
  unfold updateResources
  generalize cells w._overlapBoundaries = cs
  induction cs generalizing w with
  | nil => exact ⟨[], by simp [finalState, pure, Except.pure], by simp⟩
  | cons c cs ih =>
    obtain ⟨wr1, hw1, hg1⟩ := updateResourcesCell_calls env w c
    simp only [List.foldlM_cons, bind, Except.bind]
    cases hr : updateResourcesCell env w c with
    | error w1 =>
      rw [hr] at hw1
      exact ⟨wr1, hw1, hg1⟩
    | ok w1 =>
      rw [hr] at hw1
      obtain ⟨wr2, hw2, hg2⟩ := ih w1
      refine ⟨wr1 ++ wr2, ?_, ?_⟩
      · simp only []
        rw [hw2]
        simp only [finalState] at hw1
        rw [hw1, List.append_assoc]
      · intro e he
        rcases List.mem_append.mp he with h | h
        · exact hg1 e h
        · exact hg2 e h

theorem createAgents_example :
    createAgents 2 1 = ["Village_0", "Herder_vil0_0", "Village_1", "Herder_vil1_0"] ∧
      herderId 12 305 = "Herder_vil12_305" := by
  constructor
  · simp [createAgents, villageId, herderId, decimal, List.range_succ, List.flatMap]
    decide
  · simp [herderId, decimal]
    decide

theorem updateResources_example :
    (finalState (updateResources gridCollaborators
      { exampleWorld 1 with
        _dailyDecrease := List.replicate 11 (3 / 4)
        _overlapBoundaries := { _origin := ⟨0, 0⟩, _size := ⟨1, 1⟩ }
        store := fun r _ => match r with
          | .eResources => 20
          | .eSoilQuality => 5
          | .eResourcesFraction => 50 })).setValueCalls =
      [{ index := .eResources, position := ⟨0, 0⟩, value := 19 },
       { index := .eResourcesFraction, position := ⟨0, 0⟩, value := 75 }] := by
  simp [updateResources, cells, updateResourcesCell, vectorAt, HerderWorld.getValue,
    HerderWorld.setValue, gridCollaborators, exampleWorld, HerderWorld.ctor, finalState,
    floatToInt, List.range_succ, List.flatMap, List.singleton, pure, Except.pure, bind,
    Except.bind]
  norm_num
  have hfract : Int.fract (79 / 4 : ℚ) = 3 / 4 := by
    rw [Int.fract_eq_iff]
    exact ⟨by norm_num, by norm_num, 19, by norm_num⟩
  rw [hfract, Int.floor_eq_iff]
  norm_num

end GujaratCellphones
